import Mathlib

/-!
# Verification of the code-marshal event-log core

Shallow embedding of `src/main.rs` (and of the pieces of the repository's
`workspace_utils::{log_msg, msg_store}` modules and `executors` crate that are
not present under `src/`, which are modelled from the spec where noted).
-/

set_option maxRecDepth 4096

/-- A minimal JSON value type, standing for `serde_json::Value` as used by
`pretty_print_logmsg` when it round-trips a `json_patch::Patch` through
`serde_json::to_value` / `from_value`. -/
inductive Json where
  | null : Json
  | bool (b : Bool) : Json
  | num (n : Int) : Json
  | str (s : String) : Json
  | arr (xs : List Json) : Json
  | obj (fields : List (String × Json)) : Json
  deriving Repr

/-- Modelled from the spec: `json_patch::Patch` (the payload of a `JsonPatch`
Log Message) is opaque to the projector, which only ever observes the result of
`serde_json::to_value(patch)`; serialization may fail. We model a patch by that
serialization result (`none` = serialization failed). -/
structure Patch where
  ser : Option Json

/-- Modelled from the spec: `workspace_utils::log_msg::LogMsg`, the closed
tagged union of §3 (the module is declared in `crates/utils/src/lib.rs` but its
file is not under `src/`). Variants: SessionId, MessageId, Ready, JsonPatch,
Stdout, Stderr, Finished. -/
inductive LogMsg where
  | sessionId (id : String) : LogMsg
  | messageId (id : String) : LogMsg
  | ready : LogMsg
  | jsonPatch (p : Patch) : LogMsg
  | stdout (s : String) : LogMsg
  | stderr (s : String) : LogMsg
  | finished : LogMsg

/-- `PatchOp` from `main.rs` (serde `rename_all = "lowercase"`). -/
inductive PatchOp where
  | add : PatchOp
  | replace : PatchOp
  | remove : PatchOp

/-- Modelled from the spec: `executors::logs::NormalizedEntryType` (§3): one of
AssistantMessage, SystemMessage, Thinking, ErrorMessage{…}, ToolUse{tool_name,
status, …}, or another category carrying its variant name. The `executors`
crate is not under `src/`; `statusDbg` stands for the `{status:?}` debug text
and `otherDbg` for the `{other:?}` debug text printed by `pretty_print_logmsg`. -/
inductive NormalizedEntryType where
  | assistantMessage : NormalizedEntryType
  | systemMessage : NormalizedEntryType
  | thinking : NormalizedEntryType
  | errorMessage : NormalizedEntryType
  | toolUse (toolName : String) (statusDbg : String) : NormalizedEntryType
  | other (otherDbg : String) : NormalizedEntryType

/-- Modelled from the spec: `executors::logs::NormalizedEntry` carries
`{ entry_type, content }` (§3). -/
structure NormalizedEntry where
  entry_type : NormalizedEntryType
  content : String

/-- `PatchValue` from `main.rs` (serde adjacently tagged, `tag = "type"`,
`content = "content"`, `rename_all = "SCREAMING_SNAKE_CASE"`). -/
inductive PatchValue where
  | normalizedEntry (ne : NormalizedEntry) : PatchValue
  | stdout (s : String) : PatchValue
  | stderr (s : String) : PatchValue
  | diff (v : Json) : PatchValue

/-- `PatchEntry` from `main.rs`: `{ op, path, value: Option<PatchValue> }`. -/
structure PatchEntry where
  op : PatchOp
  path : String
  value : Option PatchValue

/-- Rust's `str::trim_end`: drop trailing whitespace characters (for the ASCII
whitespace actually produced here; `Char.isWhitespace` covers space, tab, CR, LF). -/
def trimEnd (s : String) : String :=
  ⟨(s.data.reverse.dropWhile Char.isWhitespace).reverse⟩

/-- The `kind` string computed from the op in `pretty_print_logmsg`. -/
def kindStr : PatchOp → String
  | .add => "add"
  | .replace => "replace"
  | .remove => "remove"

/-- The line printed by `pretty_print_logmsg` for one normalized entry
(`main.rs` lines 445–466). -/
def normalizedEntryLine (kind : String) (ne : NormalizedEntry) : String :=
  match ne.entry_type with
  | .assistantMessage => "[EVENT][assistant][" ++ kind ++ "] " ++ trimEnd ne.content
  | .systemMessage => "[EVENT][system][" ++ kind ++ "] " ++ trimEnd ne.content
  | .thinking => "[EVENT][thinking][" ++ kind ++ "] " ++ trimEnd ne.content
  | .errorMessage => "[EVENT][error][" ++ kind ++ "] " ++ trimEnd ne.content
  | .toolUse toolName statusDbg =>
      "[EVENT][tool][" ++ kind ++ "] " ++ toolName ++ " (" ++ statusDbg ++ ") :: "
        ++ trimEnd ne.content
  | .other otherDbg => "[EVENT][entry:" ++ otherDbg ++ "][" ++ kind ++ "] " ++ trimEnd ne.content

/-- The line printed by `pretty_print_logmsg` for one patch entry
(`main.rs` lines 437–480): dispatch on op kind and payload kind. -/
def projectEntry (e : PatchEntry) : String :=
  let kind := kindStr e.op
  match e.value with
  | some (.normalizedEntry ne) => normalizedEntryLine kind ne
  | some (.stdout s) => "[EVENT][stdout][" ++ kind ++ "] " ++ trimEnd s
  | some (.stderr s) => "[EVENT][stderr][" ++ kind ++ "] " ++ trimEnd s
  | some (.diff _) => "[EVENT][diff][" ++ kind ++ "] path=" ++ e.path ++ " "
  | none => "[EVENT][patch][" ++ kind ++ "] path=" ++ e.path ++ " (no value)"

/-- The `for e in entries` loop of `pretty_print_logmsg`: one line per entry. -/
def patchLines : List PatchEntry → List String
  | [] => []
  | e :: es => projectEntry e :: patchLines es

/-- Field lookup in a JSON object, as serde does by field name. -/
def Json.lookup (fields : List (String × Json)) (key : String) : Option Json :=
  match fields with
  | [] => none
  | (k, v) :: rest => if k = key then some v else Json.lookup rest key

/-- Deserialization of `PatchOp` (serde `rename_all = "lowercase"`). -/
def parsePatchOp : Json → Option PatchOp
  | .str "add" => some .add
  | .str "replace" => some .replace
  | .str "remove" => some .remove
  | _ => none

/-- Modelled from the spec: deserialization of
`executors::logs::NormalizedEntryType` (§3); the `executors` crate's serde
format is not under `src/`, so the variant tags follow the spec's names. -/
def parseEntryType : Json → Option NormalizedEntryType
  | .str "ASSISTANT_MESSAGE" => some .assistantMessage
  | .str "SYSTEM_MESSAGE" => some .systemMessage
  | .str "THINKING" => some .thinking
  | .obj fields =>
      match Json.lookup fields "type" with
      | some (.str "ERROR_MESSAGE") => some .errorMessage
      | some (.str "TOOL_USE") =>
          match Json.lookup fields "tool_name", Json.lookup fields "status" with
          | some (.str toolName), some (.str status) => some (.toolUse toolName status)
          | _, _ => none
      | some (.str other) => some (.other other)
      | _ => none
  | _ => none

/-- Modelled from the spec: deserialization of `executors::logs::NormalizedEntry`
`{ entry_type, content }` (§3). -/
def parseNormalizedEntry : Json → Option NormalizedEntry
  | .obj fields =>
      match Json.lookup fields "entry_type", Json.lookup fields "content" with
      | some et, some (.str content) =>
          match parseEntryType et with
          | some t => some ⟨t, content⟩
          | none => none
      | _, _ => none
  | _ => none

/-- Deserialization of `PatchValue` (serde adjacently tagged: `tag = "type"`,
`content = "content"`, `rename_all = "SCREAMING_SNAKE_CASE"`). -/
def parsePatchValue : Json → Option PatchValue
  | .obj fields =>
      match Json.lookup fields "type" with
      | some (.str "NORMALIZED_ENTRY") =>
          match Json.lookup fields "content" with
          | some c =>
              match parseNormalizedEntry c with
              | some ne => some (.normalizedEntry ne)
              | none => none
          | none => none
      | some (.str "STDOUT") =>
          match Json.lookup fields "content" with
          | some (.str s) => some (.stdout s)
          | _ => none
      | some (.str "STDERR") =>
          match Json.lookup fields "content" with
          | some (.str s) => some (.stderr s)
          | _ => none
      | some (.str "DIFF") =>
          match Json.lookup fields "content" with
          | some v => some (.diff v)
          | none => none
      | _ => none
  | _ => none

/-- Deserialization of one `PatchEntry` `{ op, path, value: Option<PatchValue> }`
(a missing or null `value` field deserializes to `None`). -/
def parsePatchEntry : Json → Option PatchEntry
  | .obj fields =>
      match Json.lookup fields "op", Json.lookup fields "path" with
      | some opj, some (.str path) =>
          match parsePatchOp opj with
          | some op =>
              match Json.lookup fields "value" with
              | none => some ⟨op, path, none⟩
              | some .null => some ⟨op, path, none⟩
              | some v =>
                  match parsePatchValue v with
                  | some pv => some ⟨op, path, some pv⟩
                  | none => none
          | none => none
      | _, _ => none
  | _ => none

/-- Element-wise deserialization of a JSON array of patch entries; fails if any
element fails. -/
def parsePatchEntryList : List Json → Option (List PatchEntry)
  | [] => some []
  | j :: js =>
      match parsePatchEntry j with
      | some e =>
          match parsePatchEntryList js with
          | some es => some (e :: es)
          | none => none
      | none => none

/-- `serde_json::from_value::<Vec<PatchEntry>>`: the value must be an array and
every element must deserialize. -/
def parsePatchEntries : Json → Option (List PatchEntry)
  | .arr xs => parsePatchEntryList xs
  | _ => none

/-- The `LogMsg::JsonPatch` arm of `pretty_print_logmsg` (`main.rs` lines
425–481): serialize the patch, parse the entries, and either print one
placeholder line on failure or one projected line per entry. -/
def prettyPatchLines (p : Patch) : List String :=
  match p.ser with
  | none => ["[EVENT][patch] <unserializable>"]
  | some v =>
      match parsePatchEntries v with
      | none => ["[EVENT][patch] <unparseable>"]
      | some entries => patchLines entries

/-- `pretty_print_logmsg` (`main.rs` lines 411–490), as the list of lines it
prints for one Log Message. -/
def prettyPrintLogMsg : LogMsg → List String
  | .sessionId id => ["[EVENT][session] " ++ id]
  | .messageId id => ["[EVENT][message_id] " ++ id]
  | .finished => ["[EVENT][finished]"]
  | .ready => ["[EVENT][ready]"]
  | .jsonPatch p => prettyPatchLines p
  | .stdout s => ["[EVENT][stdout] " ++ trimEnd s]
  | .stderr s => ["[EVENT][stderr] " ++ trimEnd s]

/-- The Unicode replacement character U+FFFD. -/
def replChar : Char := '�'

/-- Is the byte a UTF-8 continuation byte (`0x80..0xBF`)? -/
def isContByte (b : Nat) : Bool := decide (0x80 ≤ b) && decide (b < 0xC0)

/-- Valid second byte of a three-byte sequence with lead `b` (excludes
overlong encodings for lead `0xE0` and surrogates for lead `0xED`). -/
def validSecond3 (b b2 : Nat) : Bool :=
  if b = 0xE0 then decide (0xA0 ≤ b2) && decide (b2 < 0xC0)
  else if b = 0xED then decide (0x80 ≤ b2) && decide (b2 < 0xA0)
  else isContByte b2

/-- Valid second byte of a four-byte sequence with lead `b` (excludes overlong
encodings for lead `0xF0` and code points above U+10FFFF for lead `0xF4`). -/
def validSecond4 (b b2 : Nat) : Bool :=
  if b = 0xF0 then decide (0x90 ≤ b2) && decide (b2 < 0xC0)
  else if b = 0xF4 then decide (0x80 ≤ b2) && decide (b2 < 0x90)
  else isContByte b2

/-- `String::from_utf8_lossy`: decode a byte list as UTF-8, replacing each
maximal invalid subpart with one U+FFFD (Rust substitutes one replacement
character per `Utf8Error` unit: the invalid prefix consumed so far, or the
truncated tail at end of input). Never fails. -/
def utf8DecodeLossy : List Nat → List Char
  | [] => []
  | b :: rest =>
    if b < 0x80 then Char.ofNat b :: utf8DecodeLossy rest
    else if b < 0xC2 then replChar :: utf8DecodeLossy rest
    else if b < 0xE0 then
      match rest with
      | [] => [replChar]
      | b2 :: rest2 =>
          if isContByte b2 then
            Char.ofNat ((b - 0xC0) * 0x40 + (b2 - 0x80)) :: utf8DecodeLossy rest2
          else replChar :: utf8DecodeLossy (b2 :: rest2)
    else if b < 0xF0 then
      match rest with
      | [] => [replChar]
      | b2 :: rest2 =>
          if validSecond3 b b2 then
            match rest2 with
            | [] => [replChar]
            | b3 :: rest3 =>
                if isContByte b3 then
                  Char.ofNat ((b - 0xE0) * 0x1000 + (b2 - 0x80) * 0x40 + (b3 - 0x80))
                    :: utf8DecodeLossy rest3
                else replChar :: utf8DecodeLossy (b3 :: rest3)
          else replChar :: utf8DecodeLossy (b2 :: rest2)
    else if b < 0xF5 then
      match rest with
      | [] => [replChar]
      | b2 :: rest2 =>
          if validSecond4 b b2 then
            match rest2 with
            | [] => [replChar]
            | b3 :: rest3 =>
                if isContByte b3 then
                  match rest3 with
                  | [] => [replChar]
                  | b4 :: rest4 =>
                      if isContByte b4 then
                        Char.ofNat ((b - 0xF0) * 0x40000 + (b2 - 0x80) * 0x1000
                          + (b3 - 0x80) * 0x40 + (b4 - 0x80)) :: utf8DecodeLossy rest4
                      else replChar :: utf8DecodeLossy (b4 :: rest4)
                else replChar :: utf8DecodeLossy (b3 :: rest3)
          else replChar :: utf8DecodeLossy (b2 :: rest2)
    else replChar :: utf8DecodeLossy rest

/-- `String::from_utf8_lossy(&bytes).into_owned()` as a `String`. -/
def utf8Lossy (bytes : List Nat) : String :=
  ⟨utf8DecodeLossy bytes⟩

/-- One ingestion pump (`main.rs` lines 172–212): a `ReaderStream` yields
chunks as `Ok(bytes)` or `Err(e)` (the error rendered as its display text).
Each `Ok` chunk is lossily decoded and appended (via `mk`, i.e. `push_stdout`
or `push_stderr`) only if non-empty; the first `Err` appends one Stderr
message `errPrefix ++ e` and breaks the loop. Returns the appended messages
in order. -/
def pumpMsgs (mk : String → LogMsg) (errPrefix : String) :
    List (Except String (List Nat)) → List LogMsg
  | [] => []
  | .ok bytes :: rest =>
      let s := utf8Lossy bytes
      if s = "" then pumpMsgs mk errPrefix rest
      else mk s :: pumpMsgs mk errPrefix rest
  | .error e :: _ => [LogMsg.stderr (errPrefix ++ e)]

/-- The stdout pump of `main.rs` (lines 172–191). -/
def stdoutPump : List (Except String (List Nat)) → List LogMsg :=
  pumpMsgs LogMsg.stdout "[code-marshal] stdout read error: "

/-- The stderr pump of `main.rs` (lines 193–212). -/
def stderrPump : List (Except String (List Nat)) → List LogMsg :=
  pumpMsgs LogMsg.stderr "[code-marshal] stderr read error: "

/-- The message an `Ok` chunk contributes (if any): its lossy decode when
non-empty. -/
def okChunkMsg (mk : String → LogMsg) : Except String (List Nat) → Option LogMsg
  | .ok bytes => if utf8Lossy bytes = "" then none else some (mk (utf8Lossy bytes))
  | .error _ => none

/-- Is the message a raw-channel message (`matches!(msg, LogMsg::Stdout(_) | LogMsg::Stderr(_))`
in `main.rs` line 250)? -/
def isRawMsg : LogMsg → Bool
  | .stdout _ => true
  | .stderr _ => true
  | _ => false

/-- The display condition `include_raw_logs || !is_raw` of `main.rs` line 251. -/
def shouldDisplay (includeRawLogs : Bool) (msg : LogMsg) : Bool :=
  includeRawLogs || !(isRawMsg msg)

/-- `matches!(msg, LogMsg::Finished)` (`main.rs` line 267). -/
def isFinishedMsg : LogMsg → Bool
  | .finished => true
  | _ => false

/-- One outcome of the `tokio::select!` race in the streaming loop
(`main.rs` lines 231–283): the exit notification fired, the subscription
yielded `Some(Ok(msg))`, `Some(Err(_))`, or `None` (stream end). -/
inductive RaceEvent where
  | exitFired : RaceEvent
  | msgOk (m : LogMsg) : RaceEvent
  | msgErr : RaceEvent
  | streamEnd : RaceEvent

/-- Observable outcome of running the streaming loop on a trace of race
events: the messages it displayed (those passing the raw filter), how many
`Finished` it pushed to the store itself (`push_finished`), and whether it
broke out of the loop (reached the Terminated state). -/
structure LoopOut where
  displays : List LogMsg
  finishedPushes : Nat
  terminated : Bool

/-- The streaming loop of `main.rs` (lines 231–283), run over a trace of race
outcomes: exit notification → push `Finished`, break; `Some(Ok(msg))` →
display if the raw filter allows, break if the message is `Finished`;
`Some(Err(_))` → keep going; `None` → push `Finished`, break. An exhausted
trace means the loop is still running (not terminated). -/
def runLoop (includeRawLogs : Bool) : List RaceEvent → LoopOut
  | [] => ⟨[], 0, false⟩
  | .exitFired :: _ => ⟨[], 1, true⟩
  | .msgOk m :: rest =>
      let d := if shouldDisplay includeRawLogs m then [m] else []
      if isFinishedMsg m then ⟨d, 0, true⟩
      else
        let o := runLoop includeRawLogs rest
        ⟨d ++ o.displays, o.finishedPushes, o.terminated⟩
  | .msgErr :: rest => runLoop includeRawLogs rest
  | .streamEnd :: _ => ⟨[], 1, true⟩

/-- Does the event make the loop break (push-`Finished` backstop, stream end,
or an observed `Finished` message)? -/
def isTerminalEvent : RaceEvent → Bool
  | .exitFired => true
  | .streamEnd => true
  | .msgOk m => isFinishedMsg m
  | .msgErr => false

/-- Modelled from the spec: `MsgStore::history_plus_stream`
(`workspace_utils::msg_store`, not under `src/`). A subscription atomically
snapshots the history at subscribe time and then yields every later append:
its view is the replayed history followed by the live tail (§4.1). -/
def historyPlusStream (historyAtSubscribe liveAfter : List LogMsg) : List LogMsg :=
  historyAtSubscribe ++ liveAfter

/-- Modelled from the spec: a message `m` appended concurrently with the
subscribe either lands just before the hand-off (and is replayed) or just
after it (and is delivered live); the hand-off is atomic, so these are the
only possibilities (§4.1). -/
def raceSubscribeView (h : List LogMsg) (m : LogMsg) (l : List LogMsg)
    (landsBeforeHandoff : Bool) : List LogMsg :=
  if landsBeforeHandoff then historyPlusStream (h ++ [m]) l
  else historyPlusStream h (m :: l)

/-- Rust's `arg.starts_with('-')`: does the first character equal `-`? -/
def startsWithDash (s : String) : Bool :=
  match s.data with
  | [] => false
  | c :: _ => decide (c = '-')

/-- Rust's `str::to_uppercase` (for the ASCII agent names used here):
uppercase every character. -/
def toUpperStr (s : String) : String :=
  ⟨s.data.map Char.toUpper⟩

/-- The mutable parsing state of `main.rs` lines 27–32. -/
structure CliConfig where
  agentTypeStr : Option String
  followUpSessionId : Option String
  resetToMessageId : Option String
  includeRawLogs : Bool
  pretty : Bool
  prompt : String

/-- The initial parsing state (`None`/`false`/empty prompt). -/
def initCliConfig : CliConfig :=
  ⟨none, none, none, false, false, ""⟩

/-- An outcome of argument handling short of spawning: print usage and return
`Ok(())`, list agents, check installed agents, or proceed with a parsed
configuration. -/
inductive ParseOutcome where
  | usage : ParseOutcome
  | listAgents : ParseOutcome
  | checkInstalled : ParseOutcome
  | run (c : CliConfig) : ParseOutcome

/-- The `while i < args.len()` argument loop of `main.rs` lines 35–91, over the
remaining arguments. Flags taking a value consume the next argument or fail;
`--raw`/`--pretty` set booleans; an unknown `-`-argument fails; any other
argument overwrites the prompt. -/
def parseLoop (c : CliConfig) : List String → Except String ParseOutcome
  | [] => .ok (.run c)
  | a :: rest =>
      if a = "--help" ∨ a = "-h" then .ok .usage
      else if a = "--list-agents" ∨ a = "-l" then .ok .listAgents
      else if a = "--check-installed" ∨ a = "-c" then .ok .checkInstalled
      else if a = "--agent" ∨ a = "-a" then
        match rest with
        | v :: rest2 => parseLoop { c with agentTypeStr := some v } rest2
        | [] => .error "Missing value for --agent"
      else if a = "--follow-up" ∨ a = "-f" then
        match rest with
        | v :: rest2 => parseLoop { c with followUpSessionId := some v } rest2
        | [] => .error "Missing value for --follow-up <SESSION_ID>"
      else if a = "--reset-to" then
        match rest with
        | v :: rest2 => parseLoop { c with resetToMessageId := some v } rest2
        | [] => .error "Missing value for --reset-to <MESSAGE_ID>"
      else if a = "--raw" then parseLoop { c with includeRawLogs := true } rest
      else if a = "--pretty" then parseLoop { c with pretty := true } rest
      else if startsWithDash a then .error ("Unknown argument: " ++ a)
      else parseLoop { c with prompt := a } rest

/-- Argument handling of `main.rs` lines 14–91 over the full argv (program
name first): fewer than two arguments prints usage; a single argument equal to
`help`/`--help`/`-h` prints usage; otherwise the argument loop runs on
`args[1..]`. -/
def mainParse (argv : List String) : Except String ParseOutcome :=
  match argv with
  | [] => .ok .usage
  | [_] => .ok .usage
  | [_, a] =>
      if a = "help" ∨ a = "--help" ∨ a = "-h" then .ok .usage
      else parseLoop initCliConfig [a]
  | _ :: rest => parseLoop initCliConfig rest

/-- The nine agent names accepted by `BaseCodingAgent` (as printed by
`list_agents` in `main.rs`). -/
def agentNames : List String :=
  ["CLAUDE_CODE", "CURSOR_AGENT", "CODEX", "OPENCODE", "GEMINI", "QWEN_CODE",
   "AMP", "COPILOT", "DROID"]

/-- Modelled from the spec: `BaseCodingAgent::from_str` (the `executors` crate
is not under `src/`): the uppercased agent string must be one of the nine
supported agent names. -/
def baseCodingAgentFromStr (s : String) : Option String :=
  if s ∈ agentNames then some s else none

/-- The result of the setup phase of `main` (`main.rs` lines 14–158), up to
the point where the agent process would be spawned: an early-exit mode, or a
spawn request carrying the agent, prompt, and follow-up session. A spawn
request is only ever produced on this success path, so an `Except.error`
result means `main` bails before any spawn. -/
inductive SetupResult where
  | usage : SetupResult
  | listAgents : SetupResult
  | checkInstalled : SetupResult
  | spawn (agent : String) (prompt : String) (followUp : Option String) : SetupResult

/-- The setup phase of `main` (`main.rs` lines 14–158): parse arguments, print
usage on an empty prompt, resolve the agent type (`--agent` value uppercased
through `from_str`, else the first installed agent), and request the spawn.
`installed` abstracts `get_installed_agent_types()` for the machine. -/
def mainSetup (installed : List String) (argv : List String) :
    Except String SetupResult :=
  match mainParse argv with
  | .error e => .error e
  | .ok .usage => .ok .usage
  | .ok .listAgents => .ok .listAgents
  | .ok .checkInstalled => .ok .checkInstalled
  | .ok (.run c) =>
      if c.prompt = "" then .ok .usage
      else
        match c.agentTypeStr with
        | some s =>
            match baseCodingAgentFromStr (toUpperStr s) with
            | some a => .ok (.spawn a c.prompt c.followUpSessionId)
            | none =>
                .error ("Unknown agent type: " ++ s
                  ++ ". Valid values: CLAUDE_CODE, CURSOR_AGENT, CODEX, OPENCODE, GEMINI, QWEN_CODE, etc.")
        | none =>
            match installed with
            | a :: _ => .ok (.spawn a c.prompt c.followUpSessionId)
            | [] => .error "No coding agents found on system. Please install one (e.g., claude-code, cursor, etc.)"

/-- The process exit code implied by `main`'s `anyhow::Result`: `Ok` exits 0,
`Err` exits 1. -/
def exitCodeOf (r : Except String SetupResult) : Nat :=
  match r with
  | .ok _ => 0
  | .error _ => 1

/-! ## Helper lemmas -/

theorem patchLines_eq_map (es : List PatchEntry) : patchLines es = es.map projectEntry := by
  induction es with
  | nil => rfl
  | cons e es ih => simp [patchLines, ih]

/-- The messages a run of non-terminal events displays. -/
def preDisplays (includeRawLogs : Bool) : List RaceEvent → List LogMsg
  | [] => []
  | .msgOk m :: rest =>
      (if shouldDisplay includeRawLogs m then [m] else []) ++ preDisplays includeRawLogs rest
  | _ :: rest => preDisplays includeRawLogs rest

theorem runLoop_nonterminal_head (includeRawLogs : Bool) (pre post : List RaceEvent)
    (h : ∀ ev ∈ pre, isTerminalEvent ev = false) :
    runLoop includeRawLogs (pre ++ post) =
      ⟨preDisplays includeRawLogs pre ++ (runLoop includeRawLogs post).displays,
       (runLoop includeRawLogs post).finishedPushes,
       (runLoop includeRawLogs post).terminated⟩ := by
  induction pre with
  | nil => simp [preDisplays]
  | cons ev rest ih =>
      have hev : isTerminalEvent ev = false := h ev (List.mem_cons_self ev rest)
      have hrest : ∀ e ∈ rest, isTerminalEvent e = false :=
        fun e he => h e (List.mem_cons_of_mem ev he)
      cases ev with
      | exitFired => simp [isTerminalEvent] at hev
      | streamEnd => simp [isTerminalEvent] at hev
      | msgErr => simpa [runLoop, preDisplays] using ih hrest
      | msgOk m =>
          have hm : isFinishedMsg m = false := by simpa [isTerminalEvent] using hev
          simp [runLoop, preDisplays, hm, ih hrest]

/-! ## Claims -/

/-- C1: for every sequence of N messages appended to the Event Log Store
followed by a new replay-plus-live subscription, the subscription first yields
exactly those N messages in append order (the replay), then continues with
every subsequent live append; and a message appended concurrently with the
subscribe appears exactly once, at the same place, whichever side of the
atomic hand-off it lands on — no gap and no duplicate at the boundary. -/
theorem replay_plus_live_no_gap_no_dup (h l : List LogMsg) (m : LogMsg) (b : Bool) :
    List.take h.length (historyPlusStream h l) = h ∧
    List.drop h.length (historyPlusStream h l) = l ∧
    raceSubscribeView h m l b = h ++ m :: l := by
  refine ⟨?_, ?_, ?_⟩
  · simp [historyPlusStream]
  · simp [historyPlusStream]
  · cases b <;> simp [raceSubscribeView, historyPlusStream]

/-- C5: the Patch Projector maps each patch entry statelessly by operation and
payload kind: an `add` of a NormalizedEntry with entry_type AssistantMessage
and content "Hello\n" projects to the line tagged assistant/add containing
`Hello` with the trailing newline stripped; a Diff payload prints only the
entry's path (for any diff content); an absent value prints the path with the
"(no value)" marker; and the projection of a patch is the independent
per-entry map of `projectEntry`. -/
theorem patch_projection_mapping :
    projectEntry ⟨PatchOp.add, "/entries/0",
        some (PatchValue.normalizedEntry ⟨NormalizedEntryType.assistantMessage, "Hello\n"⟩)⟩
      = "[EVENT][assistant][add] Hello" ∧
    (∀ (k : PatchOp) (p : String) (j : Json),
      projectEntry ⟨k, p, some (PatchValue.diff j)⟩
        = "[EVENT][diff][" ++ kindStr k ++ "] path=" ++ p ++ " ") ∧
    (∀ (k : PatchOp) (p : String),
      projectEntry ⟨k, p, none⟩
        = "[EVENT][patch][" ++ kindStr k ++ "] path=" ++ p ++ " (no value)") ∧
    (∀ es, patchLines es = es.map projectEntry) := by
  refine ⟨by decide, fun k p j => rfl, fun k p => rfl, patchLines_eq_map⟩

/-- C6: raw suppression in the streaming loop: with `--raw` absent a
Stdout/Stderr Log Message yields no display output; with `--raw` it is
displayed; and any non-raw message is displayed in both modes. -/
theorem raw_suppression (s : String) :
    (runLoop false [RaceEvent.msgOk (LogMsg.stdout s)]).displays = [] ∧
    (runLoop false [RaceEvent.msgOk (LogMsg.stderr s)]).displays = [] ∧
    (runLoop true [RaceEvent.msgOk (LogMsg.stdout s)]).displays = [LogMsg.stdout s] ∧
    (runLoop true [RaceEvent.msgOk (LogMsg.stderr s)]).displays = [LogMsg.stderr s] ∧
    (∀ (m : LogMsg) (b : Bool), isRawMsg m = false →
      (runLoop b [RaceEvent.msgOk m]).displays = [m]) := by
  refine ⟨rfl, rfl, rfl, rfl, fun m b hm => ?_⟩
  have hd : shouldDisplay b m = true := by simp [shouldDisplay, hm]
  cases hf : isFinishedMsg m <;> simp [runLoop, hd, hf]

/-- C6 witness: a `Ready` message (non-raw) is displayed with raw mode off. -/
theorem raw_suppression_witness :
    (runLoop false [RaceEvent.msgOk LogMsg.ready]).displays = [LogMsg.ready] :=
  (raw_suppression "").2.2.2.2 LogMsg.ready false rfl

/-- C7: a transient delivery error (`Some(Err(_))` from the subscription) is
skipped: the loop's entire observable behaviour on any trace with the error
item removed is identical — it never terminates the loop, changes state, or
pushes a `Finished`. -/
theorem delivery_error_skipped (includeRawLogs : Bool) (xs ys : List RaceEvent) :
    runLoop includeRawLogs (xs ++ RaceEvent.msgErr :: ys)
      = runLoop includeRawLogs (xs ++ ys) := by
  induction xs with
  | nil => rfl
  | cons ev rest ih =>
      cases ev with
      | exitFired => rfl
      | streamEnd => rfl
      | msgErr => simpa [runLoop] using ih
      | msgOk m =>
          cases hf : isFinishedMsg m <;> simp [runLoop, hf, ih]

/-- C10: pretty-printing a `JsonPatch` Log Message is total: a patch whose
serialization fails prints exactly the `<unserializable>` placeholder line, a
serialized patch whose entries fail to deserialize prints exactly the
`<unparseable>` placeholder line, and otherwise the parsed entries are
projected — the function returns in every case. -/
theorem pretty_patch_total_placeholder :
    (∀ p : Patch, p.ser = none →
      prettyPatchLines p = ["[EVENT][patch] <unserializable>"]) ∧
    (∀ (p : Patch) (v : Json), p.ser = some v → parsePatchEntries v = none →
      prettyPatchLines p = ["[EVENT][patch] <unparseable>"]) ∧
    (∀ (p : Patch) (v : Json) (es : List PatchEntry),
      p.ser = some v → parsePatchEntries v = some es →
      prettyPatchLines p = patchLines es) := by
  refine ⟨fun p hp => ?_, fun p v hp hv => ?_, fun p v es hp hv => ?_⟩
  · simp [prettyPatchLines, hp]
  · simp [prettyPatchLines, hp, hv]
  · simp [prettyPatchLines, hp, hv]

/-- C10 witness: a patch that fails to serialize prints the
`<unserializable>` line; one that serializes to a non-array prints the
`<unparseable>` line. -/
theorem pretty_patch_total_placeholder_witness :
    prettyPatchLines ⟨none⟩ = ["[EVENT][patch] <unserializable>"] ∧
    prettyPatchLines ⟨some (Json.str "x")⟩ = ["[EVENT][patch] <unparseable>"] :=
  ⟨pretty_patch_total_placeholder.1 ⟨none⟩ rfl,
   pretty_patch_total_placeholder.2.1 ⟨some (Json.str "x")⟩ (Json.str "x") rfl rfl⟩

/-- C2: if the one-shot exit notification fires before any `Finished` message
has been observed (the prefix of race outcomes contains no terminal event),
the orchestrator pushes exactly one `Finished` to the store from this cause,
reaches the terminated state, and stops consuming — the trace after the exit
notification is ignored. -/
theorem exit_backstop_single_finished (includeRawLogs : Bool) (pre post : List RaceEvent)
    (h : ∀ ev ∈ pre, isTerminalEvent ev = false) :
    (runLoop includeRawLogs (pre ++ RaceEvent.exitFired :: post)).finishedPushes = 1 ∧
    (runLoop includeRawLogs (pre ++ RaceEvent.exitFired :: post)).terminated = true ∧
    runLoop includeRawLogs (pre ++ RaceEvent.exitFired :: post)
      = runLoop includeRawLogs (pre ++ [RaceEvent.exitFired]) := by
  have h1 := runLoop_nonterminal_head includeRawLogs pre (RaceEvent.exitFired :: post) h
  have h2 := runLoop_nonterminal_head includeRawLogs pre [RaceEvent.exitFired] h
  refine ⟨?_, ?_, ?_⟩
  · rw [h1]; rfl
  · rw [h1]; rfl
  · rw [h1, h2]; rfl

/-- C2 witness: an exit firing right after one chunk of raw output pushes one
`Finished` and terminates, ignoring a late event. -/
theorem exit_backstop_single_finished_witness :
    (runLoop true [RaceEvent.msgOk (LogMsg.stdout "x"), RaceEvent.exitFired,
        RaceEvent.msgOk LogMsg.ready]).finishedPushes = 1 := by
  have h := exit_backstop_single_finished true [RaceEvent.msgOk (LogMsg.stdout "x")]
    [RaceEvent.msgOk LogMsg.ready]
    (by intro ev hev; simp at hev; subst hev; rfl)
  exact h.1

/-- C3: `Finished` is terminal for the consumer: once the streaming loop
observes a `Finished` message (after any prefix of non-terminal outcomes), it
reaches the terminated state and its whole observable behaviour — in
particular the list of displayed/routed messages — is identical whether or
not further events follow; no Log Message after `Finished` is ever routed or
displayed in that consumer's view. -/
theorem finished_terminal_for_consumer (includeRawLogs : Bool) (pre post : List RaceEvent)
    (h : ∀ ev ∈ pre, isTerminalEvent ev = false) :
    runLoop includeRawLogs (pre ++ RaceEvent.msgOk LogMsg.finished :: post)
      = runLoop includeRawLogs (pre ++ [RaceEvent.msgOk LogMsg.finished]) ∧
    (runLoop includeRawLogs (pre ++ RaceEvent.msgOk LogMsg.finished :: post)).terminated
      = true ∧
    (runLoop includeRawLogs (pre ++ RaceEvent.msgOk LogMsg.finished :: post)).displays
      = preDisplays includeRawLogs pre ++ [LogMsg.finished] := by
  have h1 := runLoop_nonterminal_head includeRawLogs pre
    (RaceEvent.msgOk LogMsg.finished :: post) h
  have h2 := runLoop_nonterminal_head includeRawLogs pre
    [RaceEvent.msgOk LogMsg.finished] h
  refine ⟨?_, ?_, ?_⟩
  · rw [h1, h2]; rfl
  · rw [h1]; rfl
  · rw [h1]; simp [runLoop, shouldDisplay, isRawMsg, isFinishedMsg]

/-- C3 witness: after observing `Finished`, a late `Ready` event is neither
routed nor displayed. -/
theorem finished_terminal_for_consumer_witness :
    (runLoop false [RaceEvent.msgErr, RaceEvent.msgOk LogMsg.finished,
        RaceEvent.msgOk LogMsg.ready]).displays = [LogMsg.finished] := by
  have h := finished_terminal_for_consumer false [RaceEvent.msgErr]
    [RaceEvent.msgOk LogMsg.ready]
    (by intro ev hev; simp at hev; subst hev; rfl)
  simpa [preDisplays] using h.2.2

/-- C4: each ingestion pump, on a chunk trace with no read error, appends per
`Ok` chunk exactly the lossy decode of its bytes and only when that decode is
non-empty; on the first read error it appends exactly one Stderr message
carrying the error text and stops, ignoring everything after; and the decode
is lossy, never fatal: an invalid byte becomes the replacement character. -/
theorem ingestion_pump_decode_append_stop :
    (∀ (mk : String → LogMsg) (errPrefix : String)
        (chunks : List (Except String (List Nat))),
      (∀ c ∈ chunks, ∃ b, c = Except.ok b) →
      pumpMsgs mk errPrefix chunks = chunks.filterMap (okChunkMsg mk)) ∧
    (∀ (mk : String → LogMsg) (errPrefix : String)
        (pre : List (Except String (List Nat))) (e : String)
        (post : List (Except String (List Nat))),
      (∀ c ∈ pre, ∃ b, c = Except.ok b) →
      pumpMsgs mk errPrefix (pre ++ Except.error e :: post)
        = pre.filterMap (okChunkMsg mk) ++ [LogMsg.stderr (errPrefix ++ e)]) ∧
    utf8Lossy [72, 255, 33] = "H�!" := by
  refine ⟨fun mk errPrefix chunks hok => ?_, fun mk errPrefix pre e post hok => ?_, by decide⟩
  · induction chunks with
    | nil => rfl
    | cons c rest ih =>
        obtain ⟨b, rfl⟩ := hok c (List.mem_cons_self c rest)
        have hrest : ∀ c ∈ rest, ∃ b, c = Except.ok b :=
          fun c hc => hok c (List.mem_cons_of_mem _ hc)
        cases he : decide (utf8Lossy b = "") with
        | true =>
            have he' : utf8Lossy b = "" := of_decide_eq_true he
            simp [pumpMsgs, okChunkMsg, he', ih hrest]
        | false =>
            have he' : ¬(utf8Lossy b = "") := of_decide_eq_false he
            simp [pumpMsgs, okChunkMsg, he', ih hrest]
  · induction pre with
    | nil => rfl
    | cons c rest ih =>
        obtain ⟨b, rfl⟩ := hok c (List.mem_cons_self c rest)
        have hrest : ∀ c ∈ rest, ∃ b, c = Except.ok b :=
          fun c hc => hok c (List.mem_cons_of_mem _ hc)
        cases he : decide (utf8Lossy b = "") with
        | true =>
            have he' : utf8Lossy b = "" := of_decide_eq_true he
            simp [pumpMsgs, okChunkMsg, he', ih hrest]
        | false =>
            have he' : ¬(utf8Lossy b = "") := of_decide_eq_false he
            simp [pumpMsgs, okChunkMsg, he', ih hrest]

/-- C4 witness: the stdout pump on `"hi"` then a read error appends the
decoded chunk and exactly one Stderr describing the error. -/
theorem ingestion_pump_decode_append_stop_witness :
    stdoutPump [Except.ok [104, 105], Except.error "boom", Except.ok [33]]
      = [LogMsg.stdout "hi",
         LogMsg.stderr "[code-marshal] stdout read error: boom"] := by
  have h := ingestion_pump_decode_append_stop.2.1 LogMsg.stdout
    "[code-marshal] stdout read error: " [Except.ok [104, 105]] "boom" [Except.ok [33]]
    (by intro c hc; simp at hc; subst hc; exact ⟨[104, 105], rfl⟩)
  simpa [stdoutPump, okChunkMsg] using h

theorem parseLoop_cons_positional (c : CliConfig) (a : String) (rest : List String)
    (ha : startsWithDash a = false) :
    parseLoop c (a :: rest) = parseLoop { c with prompt := a } rest := by
  have hne : ∀ s : String, startsWithDash s = true → ¬(a = s) := by
    intro s hs he
    rw [he] at ha
    rw [ha] at hs
    exact Bool.noConfusion hs
  have h1 : ¬(a = "--help" ∨ a = "-h") := by
    rintro (he | he) <;> [exact hne "--help" (by decide) he; exact hne "-h" (by decide) he]
  have h2 : ¬(a = "--list-agents" ∨ a = "-l") := by
    rintro (he | he) <;>
      [exact hne "--list-agents" (by decide) he; exact hne "-l" (by decide) he]
  have h3 : ¬(a = "--check-installed" ∨ a = "-c") := by
    rintro (he | he) <;>
      [exact hne "--check-installed" (by decide) he; exact hne "-c" (by decide) he]
  have h4 : ¬(a = "--agent" ∨ a = "-a") := by
    rintro (he | he) <;> [exact hne "--agent" (by decide) he; exact hne "-a" (by decide) he]
  have h5 : ¬(a = "--follow-up" ∨ a = "-f") := by
    rintro (he | he) <;>
      [exact hne "--follow-up" (by decide) he; exact hne "-f" (by decide) he]
  have h6 : ¬(a = "--reset-to") := hne "--reset-to" (by decide)
  have h7 : ¬(a = "--raw") := hne "--raw" (by decide)
  have h8 : ¬(a = "--pretty") := hne "--pretty" (by decide)
  rw [parseLoop.eq_def]
  simp only [if_neg h1, if_neg h2, if_neg h3, if_neg h4, if_neg h5, if_neg h6,
    if_neg h7, if_neg h8, ha, Bool.false_eq_true, if_false]

theorem parseLoop_positionals :
    ∀ (ps : List String) (c : CliConfig) (last : String),
      ps.getLast? = some last → (∀ p ∈ ps, startsWithDash p = false) →
      parseLoop c ps = Except.ok (ParseOutcome.run { c with prompt := last }) := by
  intro ps
  induction ps with
  | nil => intro c last hlast _; simp at hlast
  | cons a rest ih =>
      intro c last hlast hpos
      have ha : startsWithDash a = false := hpos a (List.mem_cons_self a rest)
      have hrest : ∀ p ∈ rest, startsWithDash p = false :=
        fun p hp => hpos p (List.mem_cons_of_mem a hp)
      rw [parseLoop_cons_positional c a rest ha]
      cases rest with
      | nil =>
          simp only [List.getLast?_singleton, Option.some_inj] at hlast
          subst hlast
          rfl
      | cons b rest2 =>
          have hlast2 : (b :: rest2).getLast? = some last := by
            simpa [List.getLast?_cons_cons] using hlast
          rw [ih { c with prompt := a } last hlast2 hrest]

/-- C8: malformed arguments — an unknown flag or a flag missing its required
value — and an unknown agent type all make `main`'s setup phase fail before
any spawn: the result is an `Except.error` (never a spawn request), and any
error result means the process exits non-zero. -/
theorem fatal_setup_errors_exit_nonzero (installed : List String) :
    mainSetup installed ["code-marshal", "--frobnicate", "hi"]
      = Except.error "Unknown argument: --frobnicate" ∧
    mainSetup installed ["code-marshal", "hi", "--agent"]
      = Except.error "Missing value for --agent" ∧
    mainSetup installed ["code-marshal", "-a", "FOOBAR", "hi"]
      = Except.error ("Unknown agent type: FOOBAR. Valid values: CLAUDE_CODE, CURSOR_AGENT, CODEX, OPENCODE, GEMINI, QWEN_CODE, etc.") ∧
    (∀ (argv : List String) (e : String), mainSetup installed argv = Except.error e →
      exitCodeOf (mainSetup installed argv) = 1 ∧
      ∀ (a p : String) (f : Option String),
        mainSetup installed argv ≠ Except.ok (SetupResult.spawn a p f)) := by
  refine ⟨rfl, rfl, rfl, fun argv e he => ?_⟩
  · rw [he]
    exact ⟨rfl, fun a p f hc => Except.noConfusion hc⟩

/-- C8 witness: an unknown flag is a fatal error and the exit code is
non-zero, with no spawn request produced. -/
theorem fatal_setup_errors_exit_nonzero_witness :
    exitCodeOf (mainSetup [] ["code-marshal", "--frobnicate", "hi"]) = 1 := by
  obtain ⟨h1, _, _, hgen⟩ := fatal_setup_errors_exit_nonzero []
  exact (hgen _ _ h1).1

/-- C9: extra positional arguments are not rejected: in the argument loop
every positional argument overwrites the prompt, so the parsed prompt — and
hence the prompt in the spawn request — is the last positional argument. -/
theorem last_positional_wins_prompt (installed : List String) (p1 p2 : String)
    (h1 : startsWithDash p1 = false) (h2 : startsWithDash p2 = false) (hne : p2 ≠ "") :
    mainSetup installed ["code-marshal", "-a", "CODEX", p1, p2]
      = Except.ok (SetupResult.spawn "CODEX" p2 none) ∧
    (∀ (c : CliConfig) (ps : List String) (last : String),
      ps.getLast? = some last → (∀ p ∈ ps, startsWithDash p = false) →
      parseLoop c ps = Except.ok (ParseOutcome.run { c with prompt := last })) := by
  refine ⟨?_, fun c ps last hl hp => parseLoop_positionals ps c last hl hp⟩
  have hstep : parseLoop initCliConfig ["-a", "CODEX", p1, p2]
      = parseLoop { initCliConfig with agentTypeStr := some "CODEX" } [p1, p2] := by
    simp [parseLoop]
  have hps : parseLoop { initCliConfig with agentTypeStr := some "CODEX" } [p1, p2]
      = Except.ok (ParseOutcome.run
          { initCliConfig with agentTypeStr := some "CODEX", prompt := p2 }) := by
    refine parseLoop_positionals [p1, p2] _ p2 (by simp) ?_
    intro p hp
    simp at hp
    rcases hp with rfl | rfl
    · exact h1
    · exact h2
  simp only [mainSetup, mainParse, hstep, hps]
  rw [if_neg hne]
  rfl

/-- C9 witness: with two positional arguments, the spawn request carries the
second one as the prompt. -/
theorem last_positional_wins_prompt_witness :
    mainSetup [] ["code-marshal", "-a", "CODEX", "first prompt", "second prompt"]
      = Except.ok (SetupResult.spawn "CODEX" "second prompt" none) :=
  (last_positional_wins_prompt [] "first prompt" "second prompt"
    (by decide) (by decide) (by decide)).1
